import Mathlib

/-!
Verification of the typing-test core (`src/main.py`).

The Python source is shallowly embedded as follows.

* Python floats are modelled as `ℚ`, Python ints as `ℤ` or `ℕ`, and strings
  as `List Char` wherever character-level operations matter.
* Operations that can raise (`ZeroDivisionError` on line 275, `IndexError`
  from `random.choice` on an empty sequence on line 446) return `Option`,
  with `none` marking the raised exception.
* `random.choice` and `random.randint` are determinized by an explicit
  index argument `k`: `random.choice(seq)` becomes `seq.get? (k % seq.length)`,
  which is `some` of an arbitrary element for every non-empty `seq` and
  `none` exactly when `seq` is empty (the case where Python raises).
* `list(set(xs))` (line 401 and 444) enumerates the distinct elements of
  `xs` in an unspecified order; it is determinized as `xs.dedup`.
* The Tk timer (`after`) is not modelled directly; instead scheduled
  callbacks (`update_timer`, `update_bubbles`, `spawn_bubble`) are state
  transformers and temporal claims quantify over arbitrary sequences of
  callback invocations.
-/

/-- `TypingFrame.calculate_results`, line 274:
`correct_chars = sum(1 for a, b in zip(typed_text, self.text_to_type) if a == b)`. -/
def correct_chars (typed_text text_to_type : List Char) : ℕ :=
  ((typed_text.zip text_to_type).filter (fun p => p.1 == p.2)).length

/-- `TypingFrame.calculate_results`, line 275:
`accuracy = (correct_chars / len(typed_text)) * 100 if self.text_to_type else 0`.
The conditional tests the reference text (`self.text_to_type`), but the
division is by `len(typed_text)`; with a non-empty reference and an empty
typed text the code raises `ZeroDivisionError`, modelled as `none`. -/
def accuracy_of (text_to_type typed_text : List Char) : Option ℚ :=
  if text_to_type = [] then some 0
  else if typed_text = [] then none
  else some (((correct_chars typed_text text_to_type : ℚ) / (typed_text.length : ℚ)) * 100)

/-- `TypingFrame.calculate_results`, lines 276-278:
`words = len(typed_text) / 5`; `minutes = elapsed / 60 if elapsed > 0 else 1`;
`wpm = words / minutes`. -/
def wpm_of (typed_text : List Char) (elapsed : ℚ) : ℚ :=
  let words : ℚ := (typed_text.length : ℚ) / 5
  let minutes : ℚ := if 0 < elapsed then elapsed / 60 else 1
  words / minutes

/-- The metrics part of `TypingFrame.calculate_results` (lines 274-278) as one
function `(reference, typed, elapsed) -> (accuracy, wpm)`; the accuracy line
runs first, so its `ZeroDivisionError` aborts the whole computation. -/
def computeMetrics (text_to_type typed_text : List Char) (elapsed : ℚ) : Option (ℚ × ℚ) :=
  (accuracy_of text_to_type typed_text).map (fun a => (a, wpm_of typed_text elapsed))

/-- One row of `scores.csv`: the three fields written by
`TypingFrame.save_score` (line 290). -/
structure ScoreRecord where
  time : ℚ
  wpm : ℚ
  accuracy : ℚ
deriving DecidableEq

/-- The comparison used on line 299:
`sorted(scores, key=lambda x: float(x["WPM"]), reverse=True)`.
`wpmDesc a b` holds when `a` may come before `b` in the descending order. -/
def wpmDesc (a b : ScoreRecord) : Prop := b.wpm ≤ a.wpm

instance : DecidableRel wpmDesc := fun a b => inferInstanceAs (Decidable (b.wpm ≤ a.wpm))

instance : IsTotal ScoreRecord wpmDesc := ⟨fun a b => le_total b.wpm a.wpm⟩

instance : IsTrans ScoreRecord wpmDesc := ⟨fun _ _ _ h1 h2 => le_trans h2 h1⟩

/-- `TypingFrame.save_score`, lines 288-304: append the new entry, sort the
whole collection by WPM descending (Python's `sorted` is stable and
`reverse=True` keeps ties in original order, as insertion sort does here),
keep the first 5 rows, and write them back. -/
def save_score (scores : List ScoreRecord) (new_entry : ScoreRecord) : List ScoreRecord :=
  (List.insertionSort wpmDesc (scores ++ [new_entry])).take 5

/-- `mode` argument of `TypingFrame.__init__` (line 170). -/
inductive TrialMode
  | stopwatch
  | countdown
deriving DecidableEq

/-- The trial-relevant state of a `TypingFrame`: the flags and passage set in
`__init__`/`start_timer` (lines 186-188, 226-227), the text widget content,
and the list of score records this trial has handed to `save_score`
(exactly one `save_score` call happens per `calculate_results` run that
completes, line 286). -/
structure TrialState where
  mode : TrialMode
  running : Bool
  started : Bool
  start_time : ℚ
  text_to_type : List Char
  typed : List Char
  records : List ScoreRecord
deriving DecidableEq

/-- `TypingFrame.calculate_results`, lines 265-286, at wall-clock time `now`:
a no-op unless `running`; otherwise clear `running`, compute the metrics and
append the resulting record.  When the accuracy line raises
(`computeMetrics = none`) the exception propagates after `running` was
already cleared, so no record is saved. -/
def calculate_results (now : ℚ) (s : TrialState) : TrialState :=
  if s.running = false then s
  else
    let elapsed : ℚ := if s.started then now - s.start_time else 0
    let s1 : TrialState := { s with running := false }
    match computeMetrics s.text_to_type s.typed elapsed with
    | none => s1
    | some aw => { s1 with records := s1.records ++ [⟨elapsed, aw.2, aw.1⟩] }

/-- `TypingFrame.update_timer`, lines 231-244, at wall-clock time `now`:
a no-op unless `running`; in countdown mode (`time_limit = 60`, line 188)
compute `remaining = max(0, 60 - elapsed)` and call `calculate_results`
once remaining time has reached zero. -/
def update_timer (now : ℚ) (s : TrialState) : TrialState :=
  if s.running = false then s
  else
    match s.mode with
    | TrialMode.countdown =>
        let elapsed := now - s.start_time
        if max 0 (60 - elapsed) ≤ 0 then calculate_results now s else s
    | TrialMode.stopwatch => s

/-- `random.choice(seq)` determinized by an index `k`: `none` exactly when
`seq` is empty, which is where Python raises. -/
def py_choice {α : Type} (seq : List α) (k : ℕ) : Option α :=
  seq.get? (k % seq.length)

/-- Passage selection of `TypingFrame.__init__` when no explicit `text` was
passed, lines 178-181: in countdown mode with a non-empty `long_texts` list
choose from it, otherwise choose from `sentences or ["Default text."]`. -/
def choose_rand (mode : TrialMode) (long_texts sentences : List String) (k : ℕ) : Option String :=
  if mode = TrialMode.countdown ∧ long_texts ≠ [] then py_choice long_texts k
  else py_choice (if sentences = [] then ["Default text."] else sentences) k

/-- Passage selection of `TypingFrame.__init__`, lines 176-181 (`if text:`
is Python truthiness, so `none` and the empty string behave alike). -/
def choose_text (text : Option String) (mode : TrialMode)
    (long_texts sentences : List String) (k : ℕ) : Option String :=
  match text with
  | some t => if t = "" then choose_rand mode long_texts sentences k else some t
  | none => choose_rand mode long_texts sentences k

/-- Python `str.strip()`: drop whitespace from both ends. -/
def py_strip (l : List Char) : List Char :=
  ((l.dropWhile Char.isWhitespace).reverse.dropWhile Char.isWhitespace).reverse

/-- The word-pool fields of `BubbleFrame` (lines 401-402):
`words_pool = list(set(words))` and `used_words = set()`. -/
structure PoolState where
  words_pool : List (List Char)
  used_words : List (List Char)
deriving DecidableEq

/-- The pool state set up by `BubbleFrame.__init__` for vocabulary `vocab`. -/
def init_pool (vocab : List (List Char)) : PoolState :=
  ⟨vocab.dedup, []⟩

/-- `BubbleFrame.get_next_word`, lines 441-449: refill the pool from
`list(set(words))` when exhausted (clearing `used_words`), then take a
random pool element, remove it from the pool and add it to `used_words`.
When the vocabulary itself is empty the refilled pool is still empty and
`random.choice` raises `IndexError` (`none`); the refill has already
happened by then. -/
def get_next_word (vocab : List (List Char)) (k : ℕ) (s : PoolState) :
    Option (List Char) × PoolState :=
  let pool := if s.words_pool = [] then vocab.dedup else s.words_pool
  let used := if s.words_pool = [] then [] else s.used_words
  match py_choice pool k with
  | none => (none, ⟨pool, used⟩)
  | some w => (some w, ⟨pool.erase w, w :: used⟩)

/-- A sequence of `get_next_word` draws, one per index in `ks`; a raised
`IndexError` ends the sequence. -/
def drawSeq (vocab : List (List Char)) : List ℕ → PoolState → List (List Char) × PoolState
  | [], s => ([], s)
  | k :: ks, s =>
    match get_next_word vocab k s with
    | (none, s1) => ([], s1)
    | (some w, s1) =>
        let p := drawSeq vocab ks s1
        (w :: p.1, p.2)

/-- One falling bubble (line 464): its word and canvas coordinates. -/
structure Bubble where
  word : List Char
  x : ℤ
  y : ℤ
deriving DecidableEq

/-- `self.max_speed = 25` (line 398). -/
def max_speed : ℤ := 25

/-- `self.min_spawn_interval = 1200` (line 400). -/
def min_spawn_interval : ℤ := 1200

/-- The arcade state of a `BubbleFrame` (lines 393-402). -/
structure BubbleState where
  running : Bool
  strikes : ℕ
  bubbles : List Bubble
  score : ℕ
  speed : ℤ
  spawn_interval : ℤ
  pool : PoolState
deriving DecidableEq

/-- The state set up by `BubbleFrame.__init__` (lines 393-402). -/
def init_bubble (vocab : List (List Char)) : BubbleState :=
  { running := true, strikes := 0, bubbles := [], score := 0,
    speed := 2, spawn_interval := 2500, pool := init_pool vocab }

/-- `BubbleFrame.update_bubbles`, lines 469-498: a no-op unless `running`.
Every bubble is advanced by `speed` in list order; when a bubble's new `y`
reaches 600 the code adds a strike and calls `clear_all_bubbles`, which
empties `self.bubbles` *while the `for` loop is iterating over it* — the
iterator then finds the list exhausted, so at most one strike is counted per
tick and the bubble list ends empty (bubbles after the first floored one are
never advanced, but they are cleared, so the final state is the same as if
all had been advanced first).  `game_over` (line 545) clears `running` when
`strikes >= 3`. -/
def update_bubbles (s : BubbleState) : BubbleState :=
  if s.running = false then s
  else
    let moved := s.bubbles.map (fun b => { b with y := b.y + s.speed })
    if ∃ b ∈ moved, 600 ≤ b.y then
      let strikes1 := s.strikes + 1
      { s with bubbles := [], strikes := strikes1,
               running := if 3 ≤ strikes1 then false else s.running }
    else { s with bubbles := moved }

/-- `BubbleFrame.spawn_bubble`, lines 451-467: a no-op unless `running`;
otherwise draw a word, place a bubble at `x = random.randint(100, 900)`,
`y = -30`, and append it.  If `get_next_word` raises, the pool mutation has
already happened but no bubble is appended (and no reschedule occurs). -/
def spawn_bubble (vocab : List (List Char)) (kw kx : ℕ) (s : BubbleState) : BubbleState :=
  if s.running = false then s
  else
    match get_next_word vocab kw s.pool with
    | (none, p1) => { s with pool := p1 }
    | (some w, p1) =>
        let x : ℤ := 100 + ((kx % 801 : ℕ) : ℤ)
        { s with pool := p1, bubbles := s.bubbles ++ [{ word := w, x := x, y := -30 }] }

/-- `BubbleFrame.check_word`, lines 507-536: strip the entry text; on the
first bubble whose word equals it, remove that bubble, bump the score, apply
the two difficulty steps (speed `+1` while below `max_speed` on every 5th
score, interval `-100` clamped to `min_spawn_interval` on every 3rd score),
and stop looking (`break`).  No `running` guard: this is the keystroke
handler, not a scheduled callback. -/
def check_word (typed : List Char) (s : BubbleState) : BubbleState :=
  let t := py_strip typed
  if t = [] then s
  else
    match s.bubbles.find? (fun b => b.word == t) with
    | none => s
    | some _ =>
        let score1 := s.score + 1
        let speed1 : ℤ :=
          if score1 % 5 = 0 ∧ s.speed < max_speed then s.speed + 1 else s.speed
        let si1 : ℤ :=
          if score1 % 3 = 0 ∧ min_spawn_interval < s.spawn_interval then
            max (s.spawn_interval - 100) min_spawn_interval
          else s.spawn_interval
        { s with bubbles := s.bubbles.eraseP (fun b => b.word == t),
                 score := score1, speed := speed1, spawn_interval := si1 }

/-- `BubbleFrame.stop_game`, lines 436-439. -/
def stop_game (s : BubbleState) : BubbleState :=
  { s with running := false }

/-- The events that can reach a `BubbleFrame` after construction: the two
scheduled callbacks (`update_bubbles` motion tick and `spawn_bubble`), the
keystroke handler `check_word`, and `stop_game`.  (`clear_entry` only
touches the entry widget.) -/
inductive BEvent
  | tick
  | spawn (kw kx : ℕ)
  | key (typed : List Char)
  | stop

/-- The scheduled (timer-driven) callbacks among `BEvent`s: the motion tick
and the spawn scheduler. -/
def BEvent.isSched : BEvent → Prop
  | BEvent.tick => True
  | BEvent.spawn _ _ => True
  | _ => False

/-- One event step of the arcade engine. -/
def bstep (vocab : List (List Char)) (s : BubbleState) : BEvent → BubbleState
  | BEvent.tick => update_bubbles s
  | BEvent.spawn kw kx => spawn_bubble vocab kw kx s
  | BEvent.key typed => check_word typed s
  | BEvent.stop => stop_game s

/-- The invariant behind C10: strikes never pass 3, and the game is still
running only while at most 2 strikes have been counted. -/
def BInv (s : BubbleState) : Prop :=
  s.strikes ≤ 3 ∧ (s.running = true → s.strikes ≤ 2)

/-- One scoring event: a successful `check_word` hit on a board holding a
single matching bubble (the minimal state in which a match fires). -/
def score_event (s : BubbleState) : BubbleState :=
  check_word ['w'] { s with bubbles := [{ word := ['w'], x := 0, y := 0 }] }

/-- `n` sequential scoring events (sequential `+1` scoring). -/
def scoreTimes : ℕ → BubbleState → BubbleState
  | 0, s => s
  | n + 1, s => scoreTimes n (score_event s)

/-- A running board with 2 strikes and one bubble at `y = 599` falling at
speed 2 (it passes the floor on the next tick). -/
def strikeState : BubbleState :=
  { running := true, strikes := 2, bubbles := [{ word := ['w'], x := 0, y := 599 }],
    score := 0, speed := 2, spawn_interval := 2500, pool := ⟨[], []⟩ }

/-- A fresh arcade board holding one bubble with word `"w"`: the state on
which a `check_word` hit fires. -/
def hitState : BubbleState :=
  { running := true, strikes := 0, bubbles := [{ word := ['w'], x := 0, y := 0 }],
    score := 0, speed := 2, spawn_interval := 2500, pool := ⟨[], []⟩ }

/-- A countdown trial whose typed text was emptied again before the limit:
the input on which `calculate_results` raises. -/
def badTrial : TrialState :=
  { mode := TrialMode.countdown, running := true, started := true, start_time := 0,
    text_to_type := ['a'], typed := [], records := [] }

/-- A countdown trial with matching typed text, for the normal finish path. -/
def goodTrial : TrialState :=
  { mode := TrialMode.countdown, running := true, started := true, start_time := 0,
    text_to_type := ['a'], typed := ['a'], records := [] }

/-- C1: the claim's accuracy formula does not match the code.  Line 275
divides by `len(typed_text)` (guarding on the reference instead): for
reference `"abc"` and typed `"ab"` the code yields `100`, not
`100 * 2 / 3 = 200/3`; for reference `"abc"` and empty typed text it raises
`ZeroDivisionError` (`none`), not `0`; only the empty-reference case gives
`0` as claimed. -/
theorem claim_C1 :
    accuracy_of ['a', 'b', 'c'] ['a', 'b'] = some 100 ∧
    (100 : ℚ) ≠ 200 / 3 ∧
    accuracy_of ['a', 'b', 'c'] [] = none ∧
    accuracy_of [] [] = some 0 := by
  have h : correct_chars ['a', 'b'] ['a', 'b', 'c'] = 2 := rfl
  refine ⟨by simp [accuracy_of, h], by norm_num, by simp [accuracy_of], by simp [accuracy_of]⟩

/-- Evaluation of the metrics at reference `"abc"`, typed `"abc"`,
elapsed `0`. -/
theorem metrics_abc_zero :
    computeMetrics ['a', 'b', 'c'] ['a', 'b', 'c'] 0 = some (100, 3 / 5) := by
  have h : correct_chars ['a', 'b', 'c'] ['a', 'b', 'c'] = 3 := rfl
  simp [computeMetrics, accuracy_of, wpm_of, h]

/-- C2 counterexample: `compute("abc","abc",0)` yields `wpm = 3/5 = 0.6`,
not `0.12`, and the computation is not total: with reference `"abc"`, empty
typed text and elapsed `1` it raises (`none`). -/
theorem claim_C2_cex :
    computeMetrics ['a', 'b', 'c'] ['a', 'b', 'c'] 0 = some (100, 3 / 5) ∧
    (3 : ℚ) / 5 ≠ 12 / 100 ∧
    computeMetrics ['a', 'b', 'c'] [] 1 = none := by
  refine ⟨metrics_abc_zero, by norm_num, by simp [computeMetrics, accuracy_of]⟩

/-- C2 (amended): the metrics computation fails exactly when the reference
is non-empty and the typed text is empty; for every elapsed time `t ≤ 0`
the elapsed minutes are treated as `1`, so the WPM division never divides by
zero and `compute("abc","abc",0)` yields `wpm = 3/5` and `accuracy = 100`. -/
theorem claim_C2 (text_to_type typed_text : List Char) (elapsed : ℚ) :
    (computeMetrics text_to_type typed_text elapsed = none ↔
      text_to_type ≠ [] ∧ typed_text = []) ∧
    (elapsed ≤ 0 → wpm_of typed_text elapsed = (typed_text.length : ℚ) / 5) ∧
    computeMetrics ['a', 'b', 'c'] ['a', 'b', 'c'] 0 = some (100, 3 / 5) := by
  refine ⟨?_, ?_, metrics_abc_zero⟩
  · unfold computeMetrics accuracy_of
    by_cases h1 : text_to_type = [] <;> by_cases h2 : typed_text = [] <;> simp [h1, h2]
  · intro he
    unfold wpm_of
    rw [if_neg (not_lt.mpr he)]
    simp

/-- C2 witness: the amended C2 at reference `"a"`, typed `""`, elapsed `-1`,
with the `t ≤ 0` hypothesis discharged. -/
theorem claim_C2_witness :
    wpm_of [] (-1) = (([] : List Char).length : ℚ) / 5 :=
  (claim_C2 ['a'] [] (-1)).2.1 (by norm_num)

/-- Inserting an entry whose WPM is strictly above everything in the list
sorts it to the front. -/
theorem insertionSort_append_top (l : List ScoreRecord) (e : ScoreRecord)
    (h : ∀ b ∈ l, b.wpm < e.wpm) :
    List.insertionSort wpmDesc (l ++ [e]) = e :: List.insertionSort wpmDesc l := by
  induction l with
  | nil => simp [List.insertionSort, List.orderedInsert]
  | cons a t ih =>
    have ha : a.wpm < e.wpm := h a (List.mem_cons_self a t)
    rw [List.cons_append, List.insertionSort, ih (fun b hb => h b (List.mem_cons_of_mem a hb)),
        List.insertionSort, List.orderedInsert,
        if_neg (show ¬ wpmDesc a e from not_le.mpr ha)]

/-- `save_score` on a sorted ledger with a strictly dominating new entry. -/
theorem save_score_top (l : List ScoreRecord) (e : ScoreRecord)
    (hs : List.Sorted wpmDesc l) (h : ∀ b ∈ l, b.wpm < e.wpm) :
    save_score l e = (e :: l).take 5 := by
  unfold save_score
  rw [insertionSort_append_top l e h, hs.insertionSort_eq]

/-- C3: `save_score` appends the entry, stably sorts by WPM descending and
truncates to 5: the result always has length at most 5 and is sorted
descending; a tied new entry goes after the existing tied entry (insertion
order); and six inserts with strictly increasing WPM values leave exactly
the top five, the lowest-WPM first insert evicted. -/
theorem claim_C3 (s : List ScoreRecord) (e a b r0 r1 r2 r3 r4 r5 : ScoreRecord)
    (hab : a.wpm = b.wpm)
    (h01 : r0.wpm < r1.wpm) (h12 : r1.wpm < r2.wpm) (h23 : r2.wpm < r3.wpm)
    (h34 : r3.wpm < r4.wpm) (h45 : r4.wpm < r5.wpm) :
    (save_score s e).length ≤ 5 ∧
    List.Sorted wpmDesc (save_score s e) ∧
    save_score [a] b = [a, b] ∧
    save_score (save_score (save_score (save_score (save_score (save_score [] r0) r1) r2) r3) r4)
        r5 = [r5, r4, r3, r2, r1] := by
  have h02 := h01.trans h12
  have h03 := h02.trans h23
  have h04 := h03.trans h34
  have h05 := h04.trans h45
  have h13 := h12.trans h23
  have h14 := h13.trans h34
  have h15 := h14.trans h45
  have h24 := h23.trans h34
  have h25 := h24.trans h45
  have h35 := h34.trans h45
  have e0 : save_score [] r0 = [r0] := by
    rw [save_score_top [] r0 List.sorted_nil (by simp)]
    rfl
  have e1 : save_score [r0] r1 = [r1, r0] := by
    rw [save_score_top _ _ (List.sorted_singleton r0) (by simpa using h01)]
    rfl
  have e2 : save_score [r1, r0] r2 = [r2, r1, r0] := by
    rw [save_score_top _ _ (by simp [List.sorted_cons, wpmDesc, h01.le])
      (by simp; exact ⟨h12, h02⟩)]
    rfl
  have e3 : save_score [r2, r1, r0] r3 = [r3, r2, r1, r0] := by
    rw [save_score_top _ _ (by simp [List.sorted_cons, wpmDesc, h01.le, h02.le, h12.le])
      (by simp; exact ⟨h23, h13, h03⟩)]
    rfl
  have e4 : save_score [r3, r2, r1, r0] r4 = [r4, r3, r2, r1, r0] := by
    rw [save_score_top _ _
      (by simp [List.sorted_cons, wpmDesc, h01.le, h02.le, h03.le, h12.le, h13.le, h23.le])
      (by simp; exact ⟨h34, h24, h14, h04⟩)]
    rfl
  have e5 : save_score [r4, r3, r2, r1, r0] r5 = [r5, r4, r3, r2, r1] := by
    rw [save_score_top _ _
      (by simp [List.sorted_cons, wpmDesc, h01.le, h02.le, h03.le, h04.le, h12.le, h13.le,
        h14.le, h23.le, h24.le, h34.le])
      (by simp; exact ⟨h45, h35, h25, h15, h05⟩)]
    rfl
  refine ⟨List.length_take_le 5 _,
    List.Pairwise.sublist (List.take_sublist 5 _) (List.sorted_insertionSort wpmDesc (s ++ [e])),
    ?_, ?_⟩
  · have h : wpmDesc a b := hab.ge
    simp [save_score, List.insertionSort, List.orderedInsert, h]
  · rw [e0, e1, e2, e3, e4, e5]

/-- C3 witness: the ledger facts at concrete records with WPM 0 < 1 < 2 < 3
< 4 < 5 and a tied pair. -/
theorem claim_C3_witness :
    (save_score [] ⟨0, 0, 0⟩).length ≤ 5 ∧
    List.Sorted wpmDesc (save_score [] ⟨0, 0, 0⟩) ∧
    save_score [⟨0, 1, 0⟩] ⟨0, 1, 0⟩ = [⟨0, 1, 0⟩, ⟨0, 1, 0⟩] ∧
    save_score (save_score (save_score (save_score (save_score (save_score [] ⟨0, 0, 0⟩)
        ⟨0, 1, 0⟩) ⟨0, 2, 0⟩) ⟨0, 3, 0⟩) ⟨0, 4, 0⟩) ⟨0, 5, 0⟩
      = [⟨0, 5, 0⟩, ⟨0, 4, 0⟩, ⟨0, 3, 0⟩, ⟨0, 2, 0⟩, ⟨0, 1, 0⟩] :=
  claim_C3 [] ⟨0, 0, 0⟩ ⟨0, 1, 0⟩ ⟨0, 1, 0⟩ ⟨0, 0, 0⟩ ⟨0, 1, 0⟩ ⟨0, 2, 0⟩ ⟨0, 3, 0⟩ ⟨0, 4, 0⟩
    ⟨0, 5, 0⟩ rfl (by norm_num) (by norm_num) (by norm_num) (by norm_num) (by norm_num)

/-- A finished trial ignores a finish action (the guard on line 267). -/
theorem calculate_results_finished (now : ℚ) (s : TrialState) (h : s.running = false) :
    calculate_results now s = s := by
  simp [calculate_results, h]

/-- A finished trial ignores a timer tick (the guard on line 233). -/
theorem update_timer_finished (now : ℚ) (s : TrialState) (h : s.running = false) :
    update_timer now s = s := by
  simp [update_timer, h]

/-- Metrics at reference `"a"`, typed `"a"`, elapsed 60 seconds. -/
theorem metrics_a_sixty : computeMetrics ['a'] ['a'] 60 = some (100, 1 / 5) := by
  have h : correct_chars ['a'] ['a'] = 1 := rfl
  simp [computeMetrics, accuracy_of, wpm_of, h]

/-- The countdown tick at 60s on the crashing trial: `running` is cleared
but the `ZeroDivisionError` in `calculate_results` prevents the record. -/
theorem update_timer_badTrial :
    update_timer 60 badTrial = { badTrial with running := false } := by
  norm_num [update_timer, badTrial, calculate_results, computeMetrics, accuracy_of]

/-- The countdown tick at 60s on the normal trial finishes it and records
exactly one score. -/
theorem update_timer_goodTrial :
    update_timer 60 goodTrial =
      { goodTrial with running := false, records := [⟨60, 1 / 5, 100⟩] } := by
  have h : correct_chars ['a'] ['a'] = 1 := rfl
  norm_num [update_timer, goodTrial, calculate_results, computeMetrics, accuracy_of, wpm_of, h]

/-- C4: in countdown mode the tick loop auto-finishes at 60 elapsed seconds
(and not before), and a finish arriving on an already-finished trial is a
no-op — but "exactly one ScoreRecord per trial" fails on the code: on
`badTrial` (reference `"a"`, typed text emptied again before the limit) the
auto-finish hits the `ZeroDivisionError` of line 275 after clearing
`running`, so the trial ends with zero records instead of one. -/
theorem claim_C4 :
    (update_timer 60 badTrial).running = false ∧
    (update_timer 60 badTrial).records = [] ∧
    update_timer 59 goodTrial = goodTrial ∧
    (update_timer 60 goodTrial).running = false ∧
    (update_timer 60 goodTrial).records = [⟨60, 1 / 5, 100⟩] ∧
    calculate_results 120 (update_timer 60 goodTrial) = update_timer 60 goodTrial ∧
    update_timer 120 (update_timer 60 goodTrial) = update_timer 60 goodTrial := by
  have hb := update_timer_badTrial
  have hg := update_timer_goodTrial
  refine ⟨by rw [hb], by rw [hb]; rfl, ?_, by rw [hg], by rw [hg], ?_, ?_⟩
  · norm_num [update_timer, goodTrial]
  · exact calculate_results_finished 120 _ (by rw [hg])
  · exact update_timer_finished 120 _ (by rw [hg])

/-- `random.choice` succeeds on every non-empty sequence. -/
theorem py_choice_isSome {α : Type} (seq : List α) (k : ℕ) (h : seq ≠ []) :
    (py_choice seq k).isSome = true := by
  have hl : 0 < seq.length := List.length_pos.mpr h
  simp [py_choice, List.getElem?_eq_getElem (Nat.mod_lt k hl)]

/-- C5 counterexample: drawing the next arcade word from an empty vocabulary
does not succeed: `random.choice` on the (still empty) refilled pool raises
`IndexError` (`none`), there is no built-in default word. -/
theorem claim_C5_cex : (get_next_word [] 0 (init_pool [])).1 = none := rfl

/-- C5 (amended): selecting a passage for a typing trial always succeeds —
with no sentences the built-in `"Default text."` is used — but drawing the
next word for an arcade bubble from an empty vocabulary fails
(`IndexError`), whatever the pool state. -/
theorem claim_C5 (text : Option String) (mode : TrialMode) (long_texts sentences : List String)
    (k kw : ℕ) (u : List (List Char)) :
    (choose_text text mode long_texts sentences k).isSome = true ∧
    (get_next_word [] kw ⟨[], u⟩).1 = none := by
  constructor
  · have hrand : ∀ m lt ss kk, (choose_rand m lt ss kk : Option String).isSome = true := by
      intro m lt ss kk
      unfold choose_rand
      by_cases hc : m = TrialMode.countdown ∧ lt ≠ []
      · rw [if_pos hc]
        exact py_choice_isSome lt kk hc.2
      · rw [if_neg hc]
        by_cases hss : ss = []
        · rw [if_pos hss]
          exact py_choice_isSome _ kk (by simp)
        · rw [if_neg hss]
          exact py_choice_isSome ss kk hss
    match text with
    | none => exact hrand mode long_texts sentences k
    | some t =>
        by_cases ht : t = ""
        · simpa [choose_text, ht] using hrand mode long_texts sentences k
        · simp [choose_text, ht]
  · rfl

/-- One draw-without-replacement cycle: starting from a duplicate-free pool
and drawing at most `pool.length` times, the drawn words are pairwise
distinct, one word is drawn per index, and all of them come from the
starting pool. -/
theorem drawSeq_cycle (vocab : List (List Char)) :
    ∀ (ks : List ℕ) (s : PoolState), s.words_pool.Nodup →
      ks.length ≤ s.words_pool.length →
      (drawSeq vocab ks s).1.Nodup ∧ (drawSeq vocab ks s).1.length = ks.length ∧
        ∀ w ∈ (drawSeq vocab ks s).1, w ∈ s.words_pool
  | [], s, _, _ => by simp [drawSeq]
  | k :: ks, s, hnd, hlen => by
    have hne : s.words_pool ≠ [] := by
      intro h
      rw [h] at hlen
      simp at hlen
    obtain ⟨w, hw⟩ := Option.isSome_iff_exists.mp (py_choice_isSome s.words_pool k hne)
    have hwmem : w ∈ s.words_pool := by
      have hg : s.words_pool.get? (k % s.words_pool.length) = some w := hw
      exact List.get?_mem hg
    have hstep : get_next_word vocab k s =
        (some w, ⟨s.words_pool.erase w, w :: s.used_words⟩) := by
      simp only [get_next_word, if_neg hne, hw]
    have hseq : drawSeq vocab (k :: ks) s =
        (w :: (drawSeq vocab ks ⟨s.words_pool.erase w, w :: s.used_words⟩).1,
          (drawSeq vocab ks ⟨s.words_pool.erase w, w :: s.used_words⟩).2) := by
      simp only [drawSeq, hstep]
    have hlen1 : ks.length ≤ (s.words_pool.erase w).length := by
      rw [List.length_erase_of_mem hwmem]
      have h1 : ks.length + 1 ≤ s.words_pool.length := by simpa using hlen
      omega
    obtain ⟨ih1, ih2, ih3⟩ :=
      drawSeq_cycle vocab ks ⟨s.words_pool.erase w, w :: s.used_words⟩ (hnd.erase w) hlen1
    refine ⟨?_, ?_, ?_⟩
    · rw [hseq]
      refine List.nodup_cons.mpr ⟨?_, ih1⟩
      intro hmem
      have hwe : w ∈ s.words_pool.erase w := ih3 w hmem
      rw [hnd.mem_erase_iff] at hwe
      exact hwe.1 rfl
    · rw [hseq]
      simp [ih2]
    · rw [hseq]
      intro x hx
      rcases List.mem_cons.mp hx with hx | hx
      · rw [hx]
        exact hwmem
      · exact List.erase_subset _ _ (ih3 x hx)

/-- `get_next_word` on an exhausted pool behaves like a fresh pool: the
refill (line 443-445) restores `list(set(words))` and clears `used_words`. -/
theorem gnw_exhausted (vocab : List (List Char)) (k : ℕ) (u : List (List Char)) :
    get_next_word vocab k ⟨[], u⟩ = get_next_word vocab k (init_pool vocab) := by
  simp [get_next_word, init_pool, ite_self]

/-- The draws after exhaustion coincide with the draws from a fresh pool. -/
theorem drawSeq_exhausted (vocab : List (List Char)) (ks : List ℕ) (u : List (List Char)) :
    (drawSeq vocab ks ⟨[], u⟩).1 = (drawSeq vocab ks (init_pool vocab)).1 := by
  cases ks with
  | nil => rfl
  | cons k ks => simp only [drawSeq, gnw_exhausted vocab k u]

/-- C9 counterexample: the vocabulary `["a", "a"]` has size 2, but the pool
is built from `list(set(words))`, so the first `len(vocabulary) = 2` draws
are `"a", "a"` — a repeat, not 2 distinct words. -/
theorem claim_C9_cex :
    ([['a'], ['a']] : List (List Char)).length = 2 ∧
    (drawSeq [['a'], ['a']] [0, 0] (init_pool [['a'], ['a']])).1 = [['a'], ['a']] ∧
    ¬ ([['a'], ['a']] : List (List Char)).Nodup := by
  refine ⟨rfl, rfl, by simp⟩

/-- C9 (amended): for every vocabulary with at least 2 distinct words, a
full cycle of `(number of distinct words)` draws yields pairwise-distinct
words, both from the initial pool and from any refilled (post-exhaustion)
pool, whatever `used_words` holds at that point. -/
theorem claim_C9 (vocab : List (List Char)) (ks : List ℕ) (u : List (List Char))
    (_hsize : 2 ≤ vocab.dedup.length) (hlen : ks.length = vocab.dedup.length) :
    ((drawSeq vocab ks (init_pool vocab)).1.Nodup ∧
      (drawSeq vocab ks (init_pool vocab)).1.length = vocab.dedup.length) ∧
    ((drawSeq vocab ks ⟨[], u⟩).1.Nodup ∧
      (drawSeq vocab ks ⟨[], u⟩).1.length = vocab.dedup.length) := by
  obtain ⟨h1, h2, _⟩ :=
    drawSeq_cycle vocab ks (init_pool vocab) (List.nodup_dedup vocab) (le_of_eq hlen)
  have hfresh : (drawSeq vocab ks (init_pool vocab)).1.Nodup ∧
      (drawSeq vocab ks (init_pool vocab)).1.length = vocab.dedup.length :=
    ⟨h1, by rw [h2, hlen]⟩
  refine ⟨hfresh, ?_⟩
  rw [drawSeq_exhausted vocab ks u]
  exact hfresh

/-- C9 witness: a full cycle over the two-word vocabulary `["a", "b"]`. -/
theorem claim_C9_witness :
    ((drawSeq [['a'], ['b']] [0, 0] (init_pool [['a'], ['b']])).1.Nodup ∧
      (drawSeq [['a'], ['b']] [0, 0] (init_pool [['a'], ['b']])).1.length =
        ([['a'], ['b']] : List (List Char)).dedup.length) ∧
    ((drawSeq [['a'], ['b']] [0, 0] (⟨[], []⟩ : PoolState)).1.Nodup ∧
      (drawSeq [['a'], ['b']] [0, 0] (⟨[], []⟩ : PoolState)).1.length =
        ([['a'], ['b']] : List (List Char)).dedup.length) :=
  claim_C9 [['a'], ['b']] [0, 0] [] (by decide) (by decide)

/-- The motion tick checks `running` at its top (line 471). -/
theorem update_bubbles_not_running (s : BubbleState) (h : s.running = false) :
    update_bubbles s = s := by
  simp [update_bubbles, h]

/-- The spawn scheduler checks `running` at its top (line 453). -/
theorem spawn_bubble_not_running (vocab : List (List Char)) (kw kx : ℕ) (s : BubbleState)
    (h : s.running = false) : spawn_bubble vocab kw kx s = s := by
  simp [spawn_bubble, h]

/-- Any scheduled callback is a no-op once `running` is cleared. -/
theorem bstep_sched_noop (vocab : List (List Char)) (s : BubbleState) (e : BEvent)
    (h : s.running = false) (he : e.isSched) : bstep vocab s e = s := by
  cases e with
  | tick => exact update_bubbles_not_running s h
  | spawn kw kx => exact spawn_bubble_not_running vocab kw kx s h
  | key typed => exact absurd he (by simp [BEvent.isSched])
  | stop => exact absurd he (by simp [BEvent.isSched])

/-- Any sequence of scheduled callbacks is a no-op once `running` is
cleared. -/
theorem foldl_sched_noop (vocab : List (List Char)) (evs : List BEvent) :
    ∀ s : BubbleState, s.running = false → (∀ e ∈ evs, e.isSched) →
      List.foldl (bstep vocab) s evs = s := by
  induction evs with
  | nil => intro s _ _; rfl
  | cons e evs ih =>
    intro s h he
    rw [List.foldl_cons, bstep_sched_noop vocab s e h (he e (List.mem_cons_self e evs))]
    exact ih s h (fun x hx => he x (List.mem_cons_of_mem e hx))

/-- C7: GameOver (and any cleared `running` flag) is absorbing for the
scheduled callbacks: both the motion tick and the spawn scheduler check
`running` at their top and return, so no later sequence of scheduled spawn
or motion callbacks changes any arcade state — in particular `score` and the
live-bubble list stay unchanged for all later simulated time. -/
theorem claim_C7 (vocab : List (List Char)) (s : BubbleState) (evs : List BEvent) (kw kx : ℕ)
    (h : s.running = false) (hevs : ∀ e ∈ evs, e.isSched) :
    update_bubbles s = s ∧
    spawn_bubble vocab kw kx s = s ∧
    List.foldl (bstep vocab) s evs = s ∧
    (List.foldl (bstep vocab) s evs).score = s.score ∧
    (List.foldl (bstep vocab) s evs).bubbles = s.bubbles := by
  have hf := foldl_sched_noop vocab evs s h hevs
  exact ⟨update_bubbles_not_running s h, spawn_bubble_not_running vocab kw kx s h, hf,
    by rw [hf], by rw [hf]⟩

/-- C7 witness: a stopped arcade state with one pending tick and one pending
spawn. -/
theorem claim_C7_witness :
    update_bubbles (stop_game (init_bubble [])) = stop_game (init_bubble []) ∧
    spawn_bubble [] 0 0 (stop_game (init_bubble [])) = stop_game (init_bubble []) ∧
    List.foldl (bstep []) (stop_game (init_bubble [])) [BEvent.tick, BEvent.spawn 0 0] =
      stop_game (init_bubble []) ∧
    (List.foldl (bstep []) (stop_game (init_bubble [])) [BEvent.tick, BEvent.spawn 0 0]).score =
      (stop_game (init_bubble [])).score ∧
    (List.foldl (bstep []) (stop_game (init_bubble [])) [BEvent.tick, BEvent.spawn 0 0]).bubbles =
      (stop_game (init_bubble [])).bubbles :=
  claim_C7 [] (stop_game (init_bubble [])) [BEvent.tick, BEvent.spawn 0 0] 0 0 rfl
    (by intro e he
        rcases List.mem_cons.mp he with rfl | he
        · trivial
        rcases List.mem_cons.mp he with rfl | he
        · trivial
        exact absurd he (List.not_mem_nil e))

/-- The motion tick on a running board with a bubble at or past the floor
(after this tick's movement): one strike, the whole board cleared, and
`game_over` exactly when the strike count reaches 3. -/
theorem update_bubbles_strike (s : BubbleState) (hrun : s.running = true)
    (hfloor : ∃ b ∈ s.bubbles, 600 ≤ b.y + s.speed) :
    update_bubbles s =
      { s with bubbles := [], strikes := s.strikes + 1,
               running := if 3 ≤ s.strikes + 1 then false else s.running } := by
  have hrun1 : ¬ (s.running = false) := by simp [hrun]
  have hmoved : ∃ b ∈ s.bubbles.map (fun b => { b with y := b.y + s.speed }), 600 ≤ b.y := by
    obtain ⟨b, hb, hy⟩ := hfloor
    exact ⟨{ b with y := b.y + s.speed }, List.mem_map_of_mem _ hb, hy⟩
  simp only [update_bubbles, if_neg hrun1, if_pos hmoved]

/-- C6: on a motion tick where some live bubble reaches the floor (`y >= 600`
after this tick's fall), the board is fully cleared (not just the offending
bubble), `strikes` goes up by one, and if that reaches `maxStrikes = 3` the
phase becomes GameOver (`running = false`) and both the motion tick and the
spawn scheduler become no-ops. -/
theorem claim_C6 (vocab : List (List Char)) (s : BubbleState) (kw kx : ℕ)
    (hrun : s.running = true)
    (hfloor : ∃ b ∈ s.bubbles, 600 ≤ b.y + s.speed) :
    (update_bubbles s).bubbles = [] ∧
    (update_bubbles s).strikes = s.strikes + 1 ∧
    (3 ≤ s.strikes + 1 →
      (update_bubbles s).running = false ∧
      update_bubbles (update_bubbles s) = update_bubbles s ∧
      spawn_bubble vocab kw kx (update_bubbles s) = update_bubbles s) := by
  have hu := update_bubbles_strike s hrun hfloor
  refine ⟨by rw [hu], by rw [hu], ?_⟩
  intro h3
  have hoff : (update_bubbles s).running = false := by
    rw [hu]
    show (if 3 ≤ s.strikes + 1 then false else s.running) = false
    rw [if_pos h3]
  exact ⟨hoff, update_bubbles_not_running _ hoff, spawn_bubble_not_running vocab kw kx _ hoff⟩

/-- C6 witness: the strike tick on `strikeState` (2 strikes, one bubble at
`y = 599`, speed 2). -/
theorem claim_C6_witness :
    strikeState.running = true ∧
    (∃ b ∈ strikeState.bubbles, 600 ≤ b.y + strikeState.speed) ∧
    ((update_bubbles strikeState).bubbles = [] ∧
      (update_bubbles strikeState).strikes = strikeState.strikes + 1 ∧
      (3 ≤ strikeState.strikes + 1 →
        (update_bubbles strikeState).running = false ∧
        update_bubbles (update_bubbles strikeState) = update_bubbles strikeState ∧
        spawn_bubble [] 0 0 (update_bubbles strikeState) = update_bubbles strikeState)) :=
  ⟨rfl, ⟨{ word := ['w'], x := 0, y := 599 }, by norm_num [strikeState], by norm_num [strikeState]⟩,
    claim_C6 [] strikeState 0 0 rfl
      ⟨{ word := ['w'], x := 0, y := 599 }, by norm_num [strikeState], by norm_num [strikeState]⟩⟩

/-- `¬ (b = false)` as `b = true`. -/
theorem bool_not_false {b : Bool} (h : ¬ b = false) : b = true := by
  cases b
  · exact absurd rfl h
  · rfl

/-- One motion tick adds at most one strike, even with several bubbles at or
past the floor: `clear_all_bubbles` empties the list mid-iteration, ending
the `for` loop after the first floored bubble. -/
theorem update_strikes_le (s : BubbleState) : (update_bubbles s).strikes ≤ s.strikes + 1 := by
  by_cases hr : s.running = false
  · rw [update_bubbles_not_running s hr]
    exact Nat.le_succ _
  · simp only [update_bubbles, if_neg hr]
    by_cases hc : ∃ b ∈ s.bubbles.map (fun b => { b with y := b.y + s.speed }), 600 ≤ b.y
    · rw [if_pos hc]
    · rw [if_neg hc]
      exact Nat.le_succ _

/-- The motion tick preserves the strike invariant. -/
theorem binv_tick (s : BubbleState) (hinv : BInv s) : BInv (update_bubbles s) := by
  by_cases hr : s.running = false
  · rwa [update_bubbles_not_running s hr]
  · have hs2 : s.strikes ≤ 2 := hinv.2 (bool_not_false hr)
    simp only [update_bubbles, if_neg hr]
    by_cases hc : ∃ b ∈ s.bubbles.map (fun b => { b with y := b.y + s.speed }), 600 ≤ b.y
    · rw [if_pos hc]
      refine ⟨?_, ?_⟩
      · show s.strikes + 1 ≤ 3
        omega
      show (if 3 ≤ s.strikes + 1 then false else s.running) = true → s.strikes + 1 ≤ 2
      by_cases h3 : 3 ≤ s.strikes + 1
      · rw [if_pos h3]
        intro h
        cases h
      · rw [if_neg h3]
        intro _
        omega
    · rw [if_neg hc]
      exact ⟨hinv.1, fun h => hinv.2 h⟩

/-- The spawn scheduler touches neither `strikes` nor `running`. -/
theorem binv_spawn (vocab : List (List Char)) (kw kx : ℕ) (s : BubbleState) (hinv : BInv s) :
    BInv (spawn_bubble vocab kw kx s) := by
  by_cases hr : s.running = false
  · rwa [spawn_bubble_not_running vocab kw kx s hr]
  · simp only [spawn_bubble, if_neg hr]
    cases hq : get_next_word vocab kw s.pool with
    | mk o p1 =>
      cases o with
      | none => exact ⟨hinv.1, fun h => hinv.2 h⟩
      | some w => exact ⟨hinv.1, fun h => hinv.2 h⟩

/-- The keystroke handler touches neither `strikes` nor `running`. -/
theorem binv_key (typed : List Char) (s : BubbleState) (hinv : BInv s) :
    BInv (check_word typed s) := by
  by_cases ht : py_strip typed = []
  · have h : check_word typed s = s := by simp [check_word, ht]
    rwa [h]
  · simp only [check_word, if_neg ht]
    cases hf : s.bubbles.find? (fun b => b.word == py_strip typed) with
    | none => exact hinv
    | some b => exact ⟨hinv.1, fun h => hinv.2 h⟩

/-- Every arcade event preserves the strike invariant. -/
theorem binv_step (vocab : List (List Char)) (s : BubbleState) (e : BEvent) (hinv : BInv s) :
    BInv (bstep vocab s e) := by
  cases e with
  | tick => exact binv_tick s hinv
  | spawn kw kx => exact binv_spawn vocab kw kx s hinv
  | key typed => exact binv_key typed s hinv
  | stop => exact ⟨hinv.1, fun h => absurd h (by simp [bstep, stop_game])⟩

/-- The strike invariant holds along every event sequence. -/
theorem binv_fold (vocab : List (List Char)) (evs : List BEvent) :
    ∀ s : BubbleState, BInv s → BInv (List.foldl (bstep vocab) s evs) := by
  induction evs with
  | nil => intro s h; exact h
  | cons e evs ih =>
    intro s h
    rw [List.foldl_cons]
    exact ih _ (binv_step vocab s e h)

/-- C10: per motion tick, `strikes` grows by at most 1 (the strike handler
clears the whole bubble list while the loop iterates over it, so a second
floored bubble is never processed), and along every event sequence from the
initial arcade state `strikes` never exceeds 3. -/
theorem claim_C10 (vocab : List (List Char)) (s : BubbleState) (evs : List BEvent) :
    (update_bubbles s).strikes ≤ s.strikes + 1 ∧
    (List.foldl (bstep vocab) (init_bubble vocab) evs).strikes ≤ 3 :=
  ⟨update_strikes_le s,
    (binv_fold vocab evs (init_bubble vocab) ⟨by simp [init_bubble], fun _ => by simp [init_bubble]⟩).1⟩

/-- `check_word` either leaves the state unchanged (empty trimmed input or
no matching bubble) or performs exactly the scoring update of lines
517-532. -/
theorem check_word_cases (typed : List Char) (s : BubbleState) :
    check_word typed s = s ∨
    check_word typed s =
      { s with
        bubbles := s.bubbles.eraseP (fun b => b.word == py_strip typed),
        score := s.score + 1,
        speed := if (s.score + 1) % 5 = 0 ∧ s.speed < max_speed then s.speed + 1 else s.speed,
        spawn_interval := if (s.score + 1) % 3 = 0 ∧ min_spawn_interval < s.spawn_interval then
          max (s.spawn_interval - 100) min_spawn_interval else s.spawn_interval } := by
  by_cases ht : py_strip typed = []
  · left
    simp [check_word, ht]
  · cases hf : s.bubbles.find? (fun b => b.word == py_strip typed) with
    | none =>
        left
        simp [check_word, if_neg ht, hf]
    | some b =>
        right
        simp [check_word, if_neg ht, hf]

/-- On a non-empty trimmed input matching some live bubble, `check_word`
scores. -/
theorem check_word_hit (typed : List Char) (s : BubbleState) (ht : py_strip typed ≠ [])
    (hmatch : ∃ b ∈ s.bubbles, b.word = py_strip typed) :
    check_word typed s =
      { s with
        bubbles := s.bubbles.eraseP (fun b => b.word == py_strip typed),
        score := s.score + 1,
        speed := if (s.score + 1) % 5 = 0 ∧ s.speed < max_speed then s.speed + 1 else s.speed,
        spawn_interval := if (s.score + 1) % 3 = 0 ∧ min_spawn_interval < s.spawn_interval then
          max (s.spawn_interval - 100) min_spawn_interval else s.spawn_interval } := by
  have hfind : (s.bubbles.find? (fun b => b.word == py_strip typed)).isSome := by
    rw [List.find?_isSome]
    obtain ⟨b, hb, hw⟩ := hmatch
    exact ⟨b, hb, by simp [hw]⟩
  obtain ⟨b1, hb1⟩ := Option.isSome_iff_exists.mp hfind
  simp only [check_word, if_neg ht, hb1]

/-- The motion tick never changes the spawn interval. -/
theorem update_bubbles_interval (s : BubbleState) :
    (update_bubbles s).spawn_interval = s.spawn_interval := by
  by_cases hr : s.running = false
  · rw [update_bubbles_not_running s hr]
  · simp only [update_bubbles, if_neg hr]
    by_cases hc : ∃ b ∈ s.bubbles.map (fun b => { b with y := b.y + s.speed }), 600 ≤ b.y
    · rw [if_pos hc]
    · rw [if_neg hc]

/-- The spawn scheduler never changes the spawn interval. -/
theorem spawn_bubble_interval (vocab : List (List Char)) (kw kx : ℕ) (s : BubbleState) :
    (spawn_bubble vocab kw kx s).spawn_interval = s.spawn_interval := by
  by_cases hr : s.running = false
  · rw [spawn_bubble_not_running vocab kw kx s hr]
  · simp only [spawn_bubble, if_neg hr]
    cases hq : get_next_word vocab kw s.pool with
    | mk o p1 => cases o <;> rfl

/-- `check_word` never increases the spawn interval. -/
theorem check_word_interval_le (typed : List Char) (s : BubbleState) :
    (check_word typed s).spawn_interval ≤ s.spawn_interval := by
  rcases check_word_cases typed s with h | h
  · rw [h]
  · rw [h]
    show (if (s.score + 1) % 3 = 0 ∧ min_spawn_interval < s.spawn_interval then
      max (s.spawn_interval - 100) min_spawn_interval else s.spawn_interval) ≤ s.spawn_interval
    by_cases hc : (s.score + 1) % 3 = 0 ∧ min_spawn_interval < s.spawn_interval
    · rw [if_pos hc]
      exact max_le (by omega) hc.2.le
    · rw [if_neg hc]

/-- No arcade event increases the spawn interval. -/
theorem bstep_interval_le (vocab : List (List Char)) (s : BubbleState) (e : BEvent) :
    (bstep vocab s e).spawn_interval ≤ s.spawn_interval := by
  cases e with
  | tick => exact le_of_eq (update_bubbles_interval s)
  | spawn kw kx => exact le_of_eq (spawn_bubble_interval vocab kw kx s)
  | key typed => exact check_word_interval_le typed s
  | stop => exact le_refl _

/-- The spawn interval is monotonically non-increasing along every event
sequence. -/
theorem foldl_interval_le (vocab : List (List Char)) (evs : List BEvent) :
    ∀ s : BubbleState, (List.foldl (bstep vocab) s evs).spawn_interval ≤ s.spawn_interval := by
  induction evs with
  | nil => intro s; exact le_refl _
  | cons e evs ih =>
    intro s
    rw [List.foldl_cons]
    exact le_trans (ih (bstep vocab s e)) (bstep_interval_le vocab s e)

/-- C8: adaptive difficulty is a deterministic step function of the
cumulative score applied at each scoring event: a hit bumps the score by 1,
bumps the fall speed by 1 exactly when the new score is a multiple of 5 and
the speed is below `max_speed = 25`, and lowers the spawn interval by 100 ms
(clamped to `min_spawn_interval = 1200`) exactly when the new score is a
multiple of 3 and the interval is above the floor; the speed stays at most
25 and the interval at least 1200 and never increases — along any event
sequence; and from `fallSpeed = 2`, `spawnIntervalMs = 2500`, fifteen
sequential `+1` scoring events end at speed `5` (+3: milestones 5, 10, 15)
and interval `2000` (-500: milestones 3, 6, 9, 12, 15). -/
theorem claim_C8 (vocab : List (List Char)) (typed : List Char) (s : BubbleState)
    (evs : List BEvent)
    (hcap : s.speed ≤ max_speed) (hfloor : min_spawn_interval ≤ s.spawn_interval)
    (ht : py_strip typed ≠ []) (hmatch : ∃ b ∈ s.bubbles, b.word = py_strip typed) :
    (check_word typed s).score = s.score + 1 ∧
    (check_word typed s).speed =
      (if (s.score + 1) % 5 = 0 ∧ s.speed < max_speed then s.speed + 1 else s.speed) ∧
    (check_word typed s).spawn_interval =
      (if (s.score + 1) % 3 = 0 ∧ min_spawn_interval < s.spawn_interval then
        max (s.spawn_interval - 100) min_spawn_interval else s.spawn_interval) ∧
    (check_word typed s).speed ≤ max_speed ∧
    min_spawn_interval ≤ (check_word typed s).spawn_interval ∧
    (check_word typed s).spawn_interval ≤ s.spawn_interval ∧
    (List.foldl (bstep vocab) s evs).spawn_interval ≤ s.spawn_interval ∧
    (scoreTimes 15 (init_bubble [])).speed = 5 ∧
    (scoreTimes 15 (init_bubble [])).spawn_interval = 2000 ∧
    (scoreTimes 15 (init_bubble [])).score = 15 := by
  have hhit := check_word_hit typed s ht hmatch
  refine ⟨by rw [hhit], by rw [hhit], by rw [hhit], ?_, ?_, check_word_interval_le typed s,
    foldl_interval_le vocab evs s, by decide, by decide, by decide⟩
  · rw [hhit]
    show (if (s.score + 1) % 5 = 0 ∧ s.speed < max_speed then s.speed + 1 else s.speed) ≤
      max_speed
    by_cases hc : (s.score + 1) % 5 = 0 ∧ s.speed < max_speed
    · rw [if_pos hc]
      have h2 := hc.2
      omega
    · rw [if_neg hc]
      exact hcap
  · rw [hhit]
    show min_spawn_interval ≤
      (if (s.score + 1) % 3 = 0 ∧ min_spawn_interval < s.spawn_interval then
        max (s.spawn_interval - 100) min_spawn_interval else s.spawn_interval)
    by_cases hc : (s.score + 1) % 3 = 0 ∧ min_spawn_interval < s.spawn_interval
    · rw [if_pos hc]
      exact le_max_right _ _
    · rw [if_neg hc]
      exact hfloor

/-- C8 witness: a hit with the word `"w"` on `hitState`. -/
theorem claim_C8_witness :
    (check_word ['w'] hitState).score = hitState.score + 1 ∧
    (check_word ['w'] hitState).speed =
      (if (hitState.score + 1) % 5 = 0 ∧ hitState.speed < max_speed then hitState.speed + 1
        else hitState.speed) ∧
    (check_word ['w'] hitState).spawn_interval =
      (if (hitState.score + 1) % 3 = 0 ∧ min_spawn_interval < hitState.spawn_interval then
        max (hitState.spawn_interval - 100) min_spawn_interval else hitState.spawn_interval) ∧
    (check_word ['w'] hitState).speed ≤ max_speed ∧
    min_spawn_interval ≤ (check_word ['w'] hitState).spawn_interval ∧
    (check_word ['w'] hitState).spawn_interval ≤ hitState.spawn_interval ∧
    (List.foldl (bstep []) hitState [BEvent.tick]).spawn_interval ≤ hitState.spawn_interval ∧
    (scoreTimes 15 (init_bubble [])).speed = 5 ∧
    (scoreTimes 15 (init_bubble [])).spawn_interval = 2000 ∧
    (scoreTimes 15 (init_bubble [])).score = 15 :=
  claim_C8 [] ['w'] hitState [BEvent.tick] (by decide) (by decide) (by decide)
    ⟨{ word := ['w'], x := 0, y := 0 }, by simp [hitState], rfl⟩
